import Mathlib

/-!
Verification development for the `mongodb-plugins` repository
(`soft-delete.plugin.ts`, `timespan-unix-converter.ts`).

The soft-delete plugin builds MongoDB filter documents (plain JS objects),
registers pre-hooks on a fixed list of query methods and on `aggregate`,
and registers instance/static mutators.  We embed:

* BSON-ish values and records (documents) as association lists;
* filter documents as a syntax tree mirroring the JS objects the plugin
  constructs (`$or`, `$and`, `$exists`, `$type: 'number'`, field equality),
  with the standard MongoDB matching semantics of those operators;
* the pre-hook `apply` on queries, the `aggregate` pre-hook, the query
  helpers `withDeleted`/`onlyDeleted`, the instance methods
  `softDelete`/`restore`, and the bulk statics `softDelete`/`restore`.

Collaborator facts used by the embedding (standard Mongoose ≥ 6 behavior):
`Model.updateMany(filter, update)` creates a query with empty per-call
options and runs the registered `pre('updateMany')` query middleware before
executing, and MongoDB's `updateMany` applies the `$set` update to every
document matching the executed filter.
-/

namespace MongoPlugins

/-- BSON-ish values stored in record fields: null, numbers, strings, booleans.
(The deletion marker is a number when set, `null` after a restore.) -/
inductive BVal where
  | vnull
  | vnum (n : Int)
  | vstr (s : String)
  | vbool (b : Bool)
deriving DecidableEq, Repr

/-- A record (MongoDB document): finite association list of field name/value.
A field name that does not occur in the list is absent on the record. -/
abbrev Record := List (String × BVal)

/-- Look a field up on a record; `none` means the field is absent. -/
def lookupField (r : Record) (k : String) : Option BVal :=
  match r with
  | [] => none
  | (k', v) :: rest => if k' = k then some v else lookupField rest k

/-- Set a field on a record (the effect of a `$set` / property assignment):
replace the value if the field is present, append it otherwise. -/
def setField (r : Record) (k : String) (v : BVal) : Record :=
  match r with
  | [] => [(k, v)]
  | (k', w) :: rest => if k' = k then (k, v) :: rest else (k', w) :: setField rest k v

mutual
/-- A MongoDB filter document: a JS object, i.e. a finite list of
key/condition entries (implicitly conjoined).  `nil` is the empty object
`\x7b\x7d`, which matches every record. -/
inductive QueryDoc where
  | nil
  | cons (e : QEntry) (rest : QueryDoc)

/-- One key/value entry of a filter document, mirroring exactly the object
shapes the plugin constructs or receives from callers. -/
inductive QEntry where
  /-- `\x7bk: v\x7d` — field equality (for `v = null`, MongoDB matches
  records where the field is absent as well as records storing null). -/
  | fieldEq (k : String) (v : BVal)
  /-- `\x7bk: \x7b$exists: b\x7d\x7d`. -/
  | fieldExists (k : String) (b : Bool)
  /-- `\x7bk: \x7b$type: 'number'\x7d\x7d`. -/
  | fieldTypeNum (k : String)
  /-- `\x7b$and: [...]\x7d` — conjunction of a list of filter documents. -/
  | andOp (docs : DocList)
  /-- `\x7b$or: [...]\x7d` — disjunction of a list of filter documents. -/
  | orOp (docs : DocList)

/-- A JS array of filter documents (argument of `$and` / `$or`). -/
inductive DocList where
  | nil
  | cons (d : QueryDoc) (rest : DocList)
end

/-- Number of own keys of a filter document (`Object.keys(current).length`). -/
def keyCount : QueryDoc → Nat
  | .nil => 0
  | .cons _ rest => keyCount rest + 1

/-- The one-key document `\x7bk: v\x7d` built from a single entry. -/
def QueryDoc.single (e : QEntry) : QueryDoc := .cons e .nil

/-- The two-element array `[a, b]` of filter documents. -/
def DocList.two (a b : QueryDoc) : DocList := .cons a (.cons b .nil)

mutual
/-- MongoDB matching semantics of a filter document against a record:
all entries of the object must match. -/
def docMatch : QueryDoc → Record → Bool
  | .nil, _ => true
  | .cons e rest, r => entryMatch e r && docMatch rest r

/-- Matching semantics of a single filter entry. -/
def entryMatch : QEntry → Record → Bool
  | .fieldEq k v, r =>
      match lookupField r k with
      | none => v == BVal.vnull
      | some w => w == v
  | .fieldExists k b, r => (lookupField r k).isSome == b
  | .fieldTypeNum k, r =>
      match lookupField r k with
      | some (BVal.vnum _) => true
      | _ => false
  | .andOp ds, r => allMatch ds r
  | .orOp ds, r => anyMatch ds r

/-- All documents of a `$and` array match. -/
def allMatch : DocList → Record → Bool
  | .nil, _ => true
  | .cons d rest, r => docMatch d r && allMatch rest r

/-- Some document of a `$or` array matches. -/
def anyMatch : DocList → Record → Bool
  | .nil, _ => false
  | .cons d rest, r => docMatch d r || anyMatch rest r
end

example : docMatch (QueryDoc.single (QEntry.fieldEq "a" (BVal.vnum 3))) [("a", BVal.vnum 3)] = true := by
  rfl

example : docMatch (QueryDoc.single (QEntry.fieldEq "a" BVal.vnull)) [] = true := by
  rfl

/-- The deletion-marker field name: `opts.field = 'deletedAt'` in the plugin. -/
def fieldName : String := "deletedAt"

/-- Unix-time generator `generateUnixTime()`: `Math.floor(Date.now() / 1000)`.
`Date.now()` is the (non-negative) count of milliseconds since the epoch;
`Nat` division is the floor. -/
def generateUnixTime (nowMs : Nat) : Int := ((nowMs / 1000 : Nat) : Int)

/-- The plugin's `notDeleted()` predicate:
`\x7b $or: [\x7b deletedAt: \x7b$exists: false\x7d \x7d, \x7b deletedAt: null \x7d] \x7d`. -/
def notDeleted : QueryDoc :=
  QueryDoc.single (QEntry.orOp (DocList.two
    (QueryDoc.single (QEntry.fieldExists fieldName false))
    (QueryDoc.single (QEntry.fieldEq fieldName BVal.vnull))))

/-- The plugin's `isDeleted()` predicate: `\x7b deletedAt: \x7b$type: 'number'\x7d \x7d`. -/
def isDeleted : QueryDoc :=
  QueryDoc.single (QEntry.fieldTypeNum fieldName)

/-- The configured `defaultFilter` mode (`'exclude' | 'include' | 'only'`).
The plugin hardcodes `opts.defaultFilter = 'exclude'` but branches on the
other two values, so we keep the mode as a parameter. -/
inductive DefaultFilter where
  | exclude
  | includeAll
  | only
deriving DecidableEq, Repr

/-- The comparison `opts.defaultFilter === 'only'`. -/
def DefaultFilter.isOnly : DefaultFilter → Bool
  | .only => true
  | _ => false

/-- The comparison `opts.defaultFilter === 'include'`. -/
def DefaultFilter.isInclude : DefaultFilter → Bool
  | .includeAll => true
  | _ => false

/-- The state of a query the pre-hooks act on: the two per-call option flags
(absent options are falsy, embedded as `false`) and the filter document. -/
structure QueryState where
  onlyDeleted : Bool
  withDeleted : Bool
  filter : QueryDoc

/-- Query helper `withDeleted()`: `this.setOptions(\x7bwithDeleted: true\x7d); return this`. -/
def withDeletedHelper (q : QueryState) : QueryState :=
  { q with withDeleted := true }

/-- Query helper `onlyDeleted()`: `this.setOptions(\x7bonlyDeleted: true\x7d); return this`. -/
def onlyDeletedHelper (q : QueryState) : QueryState :=
  { q with onlyDeleted := true }

/-- The pre-hook body `apply(q)` registered on every method of the `methods`
list (`find`, `findOne`, `count`, `countDocuments`, `distinct`, `update`,
`updateOne`, `updateMany`, `findOneAndUpdate`, `findOneAndDelete`,
`findOneAndRemove`, `exists`):

* `only = qopts.onlyDeleted || defaultFilter === 'only'`;
* `include = qopts.withDeleted || defaultFilter === 'include'`;
* if `include && !only`, leave the query untouched;
* otherwise pick `cond = only ? isDeleted() : notDeleted()` and either set
  the filter to `cond` (`q.where(cond)` on an empty filter) when the current
  filter has no own keys, or replace it by `\x7b$and: [current, cond]\x7d`
  (`q.setQuery`). -/
def apply (df : DefaultFilter) (q : QueryState) : QueryState :=
  let only := q.onlyDeleted || df.isOnly
  let incl := q.withDeleted || df.isInclude
  if incl && !only then q
  else
    let cond := if only then isDeleted else notDeleted
    let current := q.filter
    let hasFilter := keyCount current > 0
    if !hasFilter then { q with filter := cond }
    else { q with filter := QueryDoc.single (QEntry.andOp (DocList.two current cond)) }

/-- A stage of an aggregation pipeline: either a `$match` stage or any other
stage, opaque to the plugin (it only ever prepends a `$match`). -/
inductive Stage where
  | matchStage (d : QueryDoc)
  | otherStage (tag : Nat)

/-- The `pre('aggregate')` hook: resolve `only`/`include` from
`this.options` exactly as `apply` does and, unless `include && !only`,
`unshift` a `$match` stage carrying the chosen predicate onto the pipeline. -/
def aggregatePre (df : DefaultFilter) (onlyOpt withOpt : Bool)
    (pipeline : List Stage) : List Stage :=
  let only := onlyOpt || df.isOnly
  let incl := withOpt || df.isInclude
  if incl && !only then pipeline
  else Stage.matchStage (if only then isDeleted else notDeleted) :: pipeline

/-- Instance method `softDelete()`: set the marker field to the current Unix
time and `save()` (persistence delegates to the store; its effect on the
stored record is the field assignment). -/
def instanceSoftDelete (now : Int) (r : Record) : Record :=
  setField r fieldName (BVal.vnum now)

/-- Instance method `restore()`: set the marker field to `null` and `save()`. -/
def instanceRestore (r : Record) : Record :=
  setField r fieldName BVal.vnull

/-- The empty filter document `\x7b\x7d`, the default for the bulk statics. -/
def emptyDoc : QueryDoc := QueryDoc.nil

/-- Execution of `this.updateMany(filter, \x7b$set: \x7bk: v\x7d\x7d)` issued from a
static: Mongoose runs the registered `pre('updateMany')` query middleware
(the hook `apply`, with empty per-call options) on the query before it
executes, and the store then applies the `$set` to every record matching
the executed filter. -/
def updateManySet (df : DefaultFilter) (filter : QueryDoc) (k : String) (v : BVal)
    (coll : List Record) : List Record :=
  let executed := (apply df { onlyDeleted := false, withDeleted := false, filter := filter }).filter
  coll.map fun r => if docMatch executed r then setField r k v else r

/-- Bulk static `softDelete(filter = \x7b\x7d)`:
`this.updateMany(filter, \x7b$set: \x7bdeletedAt: generateUnixTime()\x7d\x7d)`. -/
def softDeleteStatic (now : Int) (coll : List Record)
    (filter : QueryDoc := emptyDoc) : List Record :=
  updateManySet DefaultFilter.exclude filter fieldName (BVal.vnum now) coll

/-- Bulk static `restore(filter = \x7b\x7d)`:
`this.updateMany(filter, \x7b$set: \x7bdeletedAt: null\x7d\x7d)`. -/
def restoreStatic (coll : List Record)
    (filter : QueryDoc := emptyDoc) : List Record :=
  updateManySet DefaultFilter.exclude filter fieldName BVal.vnull coll

/-- State of a document as the timestamp plugin's `pre('save')` hook sees it:
the `isNew` flag and the two timestamp fields. -/
structure TimeDoc where
  isNew : Bool
  createdAt : Option Int
  updatedAt : Option Int
  deriving Repr

/-- The timestamp plugin's `pre('save')` hook:
`if (this.isNew) this.createdAt = generateUnixTime(); this.updatedAt = generateUnixTime()`. -/
def preSave (nowMs : Nat) (d : TimeDoc) : TimeDoc :=
  let d' := if d.isNew then { d with createdAt := some (generateUnixTime nowMs) } else d
  { d' with updatedAt := some (generateUnixTime nowMs) }

/-- The timestamp plugin's `pre('findOneAndUpdate')` hook:
`this.set(\x7bupdatedAt: generateUnixTime()\x7d)` merges the stamped field into
the update document, so the executed update sets `updatedAt` to it. -/
def preFindOneAndUpdate (nowMs : Nat) (updateSet : List (String × BVal)) :
    List (String × BVal) :=
  setField updateSet "updatedAt" (BVal.vnum (generateUnixTime nowMs))

/-! Helper lemmas about the embedding. -/

theorem lookupField_setField_self (r : Record) (k : String) (v : BVal) :
    lookupField (setField r k v) k = some v := by
  induction r with
  | nil => simp [setField, lookupField]
  | cons hd tl ih =>
      obtain ⟨k', w⟩ := hd
      by_cases h : k' = k <;> simp [setField, lookupField, h, ih]

theorem lookupField_setField_other (r : Record) (k k' : String) (v : BVal)
    (h : k' ≠ k) : lookupField (setField r k v) k' = lookupField r k' := by
  induction r with
  | nil => simp [setField, lookupField, Ne.symm h]
  | cons hd tl ih =>
      obtain ⟨k'', w⟩ := hd
      by_cases h2 : k'' = k
      · subst h2
        simp [setField, lookupField, Ne.symm h]
      · by_cases h3 : k'' = k' <;> simp [setField, lookupField, h, h2, h3, ih]

theorem docMatch_nil (r : Record) : docMatch QueryDoc.nil r = true := rfl

theorem docMatch_notDeleted (r : Record) :
    docMatch notDeleted r = true ↔
      lookupField r fieldName = none ∨ lookupField r fieldName = some BVal.vnull := by
  simp only [notDeleted, QueryDoc.single, DocList.two, docMatch, entryMatch, anyMatch]
  cases h : lookupField r fieldName with
  | none => simp
  | some w => cases w <;> simp

theorem docMatch_isDeleted (r : Record) :
    docMatch isDeleted r = true ↔
      ∃ n, lookupField r fieldName = some (BVal.vnum n) := by
  simp only [isDeleted, QueryDoc.single, docMatch, entryMatch]
  cases h : lookupField r fieldName with
  | none => simp
  | some w => cases w <;> simp

theorem docMatch_andTwo (c d : QueryDoc) (r : Record) :
    docMatch (QueryDoc.single (QEntry.andOp (DocList.two c d))) r =
      (docMatch c r && docMatch d r) := by
  simp [QueryDoc.single, DocList.two, docMatch, entryMatch, allMatch]

theorem keyCount_eq_zero_iff (f : QueryDoc) : keyCount f = 0 ↔ f = QueryDoc.nil := by
  cases f <;> simp [keyCount]

/-- Semantics of the executed filter after the pre-hook under the default
`'exclude'` mode with no per-call options: the record must match both the
caller's filter and `notDeleted()`. -/
theorem apply_exclude_semantics (f : QueryDoc) (r : Record) :
    docMatch (apply DefaultFilter.exclude
        { onlyDeleted := false, withDeleted := false, filter := f }).filter r =
      (docMatch f r && docMatch notDeleted r) := by
  cases f with
  | nil => simp [apply, DefaultFilter.isOnly, DefaultFilter.isInclude, keyCount, docMatch_nil]
  | cons e rest =>
      simp [apply, DefaultFilter.isOnly, DefaultFilter.isInclude, keyCount, docMatch_andTwo]

/-- Shape of the filter produced by the pre-hook whenever the resolved mode
is not include-without-only. -/
theorem apply_filter_eq (df : DefaultFilter) (q : QueryState)
    (h : ((q.withDeleted || df.isInclude) && !(q.onlyDeleted || df.isOnly)) = false) :
    (apply df q).filter =
      if keyCount q.filter = 0
      then (if (q.onlyDeleted || df.isOnly) then isDeleted else notDeleted)
      else QueryDoc.single (QEntry.andOp (DocList.two q.filter
        (if (q.onlyDeleted || df.isOnly) then isDeleted else notDeleted))) := by
  obtain ⟨o, w, f⟩ := q
  cases df <;> cases o <;> cases w <;>
    (try (simp [DefaultFilter.isInclude, DefaultFilter.isOnly] at h)) <;>
    cases f <;>
    simp [apply, keyCount, DefaultFilter.isInclude, DefaultFilter.isOnly]

theorem docMatch_notDeleted_after_stamp (r : Record) (t : Int) :
    docMatch notDeleted (setField r fieldName (BVal.vnum t)) = false := by
  rw [Bool.eq_false_iff]
  intro h
  rcases (docMatch_notDeleted _).mp h with h' | h' <;>
    rw [lookupField_setField_self] at h' <;> simp at h'

/-- Claim C3: for every record whose deletion-marker field is present with a
numeric value and every hooked operation (all hooked methods run the same
`apply`) issued with both per-call options false under the default
`'exclude'` mode, the executed filter rejects the record, whatever the
caller's filter is — a default read never returns a soft-deleted record. -/
theorem C3_default_read_excludes_deleted (f : QueryDoc) (r : Record) (n : Int)
    (h : lookupField r fieldName = some (BVal.vnum n)) :
    docMatch (apply DefaultFilter.exclude
        { onlyDeleted := false, withDeleted := false, filter := f }).filter r = false := by
  rw [apply_exclude_semantics]
  have hnd : docMatch notDeleted r = false := by
    rw [Bool.eq_false_iff]
    intro hm
    rcases (docMatch_notDeleted r).mp hm with h' | h' <;> rw [h] at h' <;> simp at h'
  simp [hnd]

theorem C3_witness :
    lookupField [(fieldName, BVal.vnum 5)] fieldName = some (BVal.vnum 5) ∧
    docMatch (apply DefaultFilter.exclude
        { onlyDeleted := false, withDeleted := false, filter := emptyDoc }).filter
      [(fieldName, BVal.vnum 5)] = false :=
  ⟨by decide, C3_default_read_excludes_deleted emptyDoc [(fieldName, BVal.vnum 5)] 5 (by decide)⟩

/-- Claim C4: when both `onlyDeleted` and `withDeleted` are requested on an
operation, the engine injects `isDeleted()` — the executed filter (resp. the
resulting pipeline) is exactly the one produced when `onlyDeleted` alone is
requested; `only` takes precedence over `include`, under every default mode. -/
theorem C4_only_precedence (df : DefaultFilter) (f : QueryDoc) (p : List Stage) :
    (apply df { onlyDeleted := true, withDeleted := true, filter := f }).filter =
      (apply df { onlyDeleted := true, withDeleted := false, filter := f }).filter ∧
    (apply df { onlyDeleted := true, withDeleted := true, filter := f }).filter =
      (if keyCount f = 0 then isDeleted
       else QueryDoc.single (QEntry.andOp (DocList.two f isDeleted))) ∧
    aggregatePre df true true p = aggregatePre df true false p ∧
    aggregatePre df true true p = Stage.matchStage isDeleted :: p := by
  refine ⟨?_, ?_, ?_, ?_⟩ <;> cases f <;> simp [apply, aggregatePre, keyCount]

/-- Claim C5: whenever a deletion predicate `cond` is injected (i.e. the
mode does not resolve to include-without-only): a caller filter with zero
own keys is replaced by exactly `cond`, and a non-empty caller filter
becomes the `$and` of the caller filter and `cond`, whose matching
semantics is exactly the conjunction of the two — not a key-wise merge. -/
theorem C5_filter_merge (df : DefaultFilter) (q : QueryState)
    (h : ((q.withDeleted || df.isInclude) && !(q.onlyDeleted || df.isOnly)) = false) :
    (keyCount q.filter = 0 →
       (apply df q).filter =
         (if (q.onlyDeleted || df.isOnly) then isDeleted else notDeleted)) ∧
    (0 < keyCount q.filter →
       (apply df q).filter =
         QueryDoc.single (QEntry.andOp (DocList.two q.filter
           (if (q.onlyDeleted || df.isOnly) then isDeleted else notDeleted))) ∧
       ∀ r, docMatch (apply df q).filter r =
         (docMatch q.filter r &&
          docMatch (if (q.onlyDeleted || df.isOnly) then isDeleted else notDeleted) r)) := by
  have ha := apply_filter_eq df q h
  constructor
  · intro hk
    rw [ha, if_pos hk]
  · intro hk
    have hk0 : ¬ keyCount q.filter = 0 := by omega
    rw [ha, if_neg hk0]
    exact ⟨rfl, fun r => docMatch_andTwo _ _ r⟩

theorem C5_witness :
    (apply DefaultFilter.exclude
        { onlyDeleted := false, withDeleted := false,
          filter := QueryDoc.single (QEntry.fieldEq "status" (BVal.vstr "active")) }).filter =
      QueryDoc.single (QEntry.andOp (DocList.two
        (QueryDoc.single (QEntry.fieldEq "status" (BVal.vstr "active"))) notDeleted)) :=
  ((C5_filter_merge DefaultFilter.exclude
      { onlyDeleted := false, withDeleted := false,
        filter := QueryDoc.single (QEntry.fieldEq "status" (BVal.vstr "active")) }
      rfl).2 (by decide)).1

/-- Claim C6: `notDeleted()` matches a record iff the marker field is absent
or null; `isDeleted()` matches iff the field holds a numeric value; a
non-null, non-numeric marker value matches neither predicate, so such a
record is excluded from both the live and the only-deleted view. -/
theorem C6_predicate_semantics (r : Record) :
    (docMatch notDeleted r = true ↔
       lookupField r fieldName = none ∨ lookupField r fieldName = some BVal.vnull) ∧
    (docMatch isDeleted r = true ↔
       ∃ n, lookupField r fieldName = some (BVal.vnum n)) ∧
    (∀ v, lookupField r fieldName = some v → v ≠ BVal.vnull →
       (∀ n : Int, v ≠ BVal.vnum n) →
       docMatch notDeleted r = false ∧ docMatch isDeleted r = false) := by
  refine ⟨docMatch_notDeleted r, docMatch_isDeleted r, ?_⟩
  intro v hv hnull hnum
  constructor
  · rw [Bool.eq_false_iff]
    intro hm
    rcases (docMatch_notDeleted r).mp hm with h' | h' <;> rw [hv] at h'
    · exact Option.noConfusion h'
    · exact hnull (Option.some.injEq .. ▸ h')
  · rw [Bool.eq_false_iff]
    intro hm
    obtain ⟨n, hn⟩ := (docMatch_isDeleted r).mp hm
    rw [hv] at hn
    exact hnum n (Option.some.injEq .. ▸ hn)

theorem C6_witness :
    docMatch notDeleted [("deletedAt", BVal.vstr "corrupt")] = false ∧
    docMatch isDeleted [("deletedAt", BVal.vstr "corrupt")] = false :=
  (C6_predicate_semantics [("deletedAt", BVal.vstr "corrupt")]).2.2
    (BVal.vstr "corrupt") (by decide) (by decide) (fun n => by simp)

/-- Claim C7: the `aggregate` pre-hook, whenever the resolved mode requires a
deletion predicate, prepends exactly one `$match` stage carrying that
predicate (the length grows by one, the new head is the `$match`, and the
tail is the original pipeline with its stage order untouched); when the mode
resolves to include-without-only, the pipeline is returned unmodified. -/
theorem C7_aggregate_match_stage (df : DefaultFilter) (o w : Bool) (p : List Stage) :
    (((w || df.isInclude) && !(o || df.isOnly)) = true → aggregatePre df o w p = p) ∧
    (((w || df.isInclude) && !(o || df.isOnly)) = false →
       aggregatePre df o w p =
         Stage.matchStage (if (o || df.isOnly) then isDeleted else notDeleted) :: p ∧
       (aggregatePre df o w p).length = p.length + 1 ∧
       (aggregatePre df o w p).tail = p) := by
  constructor <;> intro h <;>
    cases df <;> cases o <;> cases w <;>
      (try (simp [DefaultFilter.isInclude, DefaultFilter.isOnly] at h)) <;>
      simp [aggregatePre, DefaultFilter.isInclude, DefaultFilter.isOnly]

theorem C7_witness :
    aggregatePre DefaultFilter.exclude false false [Stage.otherStage 0] =
      Stage.matchStage notDeleted :: [Stage.otherStage 0] :=
  ((C7_aggregate_match_stage DefaultFilter.exclude false false [Stage.otherStage 0]).2 rfl).1

/-- Claim C8: the instance-level `restore()` sets the marker field to null
(the field is present, holding null, not removed); `notDeleted()` accepts
the null marker, and a subsequent default-mode read's executed filter
matches the restored record exactly when the caller's filter does — in
particular `softDelete()` followed by `restore()` makes the record
default-visible again. -/
theorem C8_restore_visibility (r : Record) (now : Int) (f : QueryDoc) :
    lookupField (instanceRestore r) fieldName = some BVal.vnull ∧
    docMatch notDeleted (instanceRestore r) = true ∧
    docMatch (apply DefaultFilter.exclude
        { onlyDeleted := false, withDeleted := false, filter := f }).filter
      (instanceRestore r) = docMatch f (instanceRestore r) ∧
    docMatch notDeleted (instanceRestore (instanceSoftDelete now r)) = true := by
  have h1 : lookupField (instanceRestore r) fieldName = some BVal.vnull :=
    lookupField_setField_self r fieldName BVal.vnull
  have h2 : docMatch notDeleted (instanceRestore r) = true :=
    (docMatch_notDeleted _).mpr (Or.inr h1)
  have h4 : docMatch notDeleted (instanceRestore (instanceSoftDelete now r)) = true :=
    (docMatch_notDeleted _).mpr
      (Or.inr (lookupField_setField_self (instanceSoftDelete now r) fieldName BVal.vnull))
  refine ⟨h1, h2, ?_, h4⟩
  rw [apply_exclude_semantics, h2, Bool.and_true]

/-- Claim C9: the timestamp stamper sets the creation marker exactly on
newly created documents (and never overwrites it on later saves), sets the
update marker on every save and on every `findOneAndUpdate`, and the stamped
value is the integer count of whole seconds since the Unix epoch (the floor
of the millisecond clock divided by 1000). -/
theorem C9_timestamp_stamper (nowMs : Nat) (d : TimeDoc) (u : List (String × BVal)) :
    (d.isNew = true → (preSave nowMs d).createdAt = some (generateUnixTime nowMs)) ∧
    (d.isNew = false → (preSave nowMs d).createdAt = d.createdAt) ∧
    (preSave nowMs d).updatedAt = some (generateUnixTime nowMs) ∧
    lookupField (preFindOneAndUpdate nowMs u) "updatedAt" =
      some (BVal.vnum (generateUnixTime nowMs)) ∧
    0 ≤ generateUnixTime nowMs ∧
    1000 * generateUnixTime nowMs ≤ (nowMs : Int) ∧
    (nowMs : Int) < 1000 * (generateUnixTime nowMs + 1) := by
  have hdiv := Nat.div_add_mod nowMs 1000
  have hmod : nowMs % 1000 < 1000 := Nat.mod_lt nowMs (by norm_num)
  refine ⟨?_, ?_, ?_, ?_, ?_, ?_, ?_⟩
  · intro h
    simp [preSave, h]
  · intro h
    simp [preSave, h]
  · cases h : d.isNew <;> simp [preSave, h]
  · exact lookupField_setField_self u "updatedAt" (BVal.vnum (generateUnixTime nowMs))
  · exact Int.natCast_nonneg _
  · simp only [generateUnixTime]
    push_cast
    omega
  · simp only [generateUnixTime]
    push_cast
    omega

theorem C9_witness :
    (preSave 1234 { isNew := true, createdAt := none, updatedAt := none }).createdAt =
      some (generateUnixTime 1234) ∧
    (preSave 5678 { isNew := false, createdAt := some 1, updatedAt := none }).createdAt =
      some 1 ∧
    (preSave 1234 { isNew := true, createdAt := none, updatedAt := none }).updatedAt =
      some (generateUnixTime 1234) :=
  ⟨(C9_timestamp_stamper 1234 { isNew := true, createdAt := none, updatedAt := none } []).1 rfl,
   (C9_timestamp_stamper 5678 { isNew := false, createdAt := some 1, updatedAt := none } []).2.1 rfl,
   (C9_timestamp_stamper 1234 { isNew := true, createdAt := none, updatedAt := none } []).2.2.1⟩

/-- Claim C10: the query helpers `withDeleted()` / `onlyDeleted()` set only
their own option flag, leaving the other flag and the filter condition of
the same query untouched; and when the mode resolves to include-without-only
the filter-injection step returns the query completely unchanged. -/
theorem C10_helpers_frame (q : QueryState) (df : DefaultFilter) :
    (withDeletedHelper q).withDeleted = true ∧
    (withDeletedHelper q).onlyDeleted = q.onlyDeleted ∧
    (withDeletedHelper q).filter = q.filter ∧
    (onlyDeletedHelper q).onlyDeleted = true ∧
    (onlyDeletedHelper q).withDeleted = q.withDeleted ∧
    (onlyDeletedHelper q).filter = q.filter ∧
    ((q.withDeleted || df.isInclude) = true → (q.onlyDeleted || df.isOnly) = false →
       apply df q = q) := by
  refine ⟨rfl, rfl, rfl, rfl, rfl, rfl, ?_⟩
  intro hincl honly
  simp [apply, hincl, honly]

theorem C10_witness :
    (withDeletedHelper { onlyDeleted := false, withDeleted := false, filter := emptyDoc }).filter
      = emptyDoc ∧
    apply DefaultFilter.exclude
        { onlyDeleted := false, withDeleted := true, filter := emptyDoc } =
      { onlyDeleted := false, withDeleted := true, filter := emptyDoc } :=
  ⟨(C10_helpers_frame
      { onlyDeleted := false, withDeleted := false, filter := emptyDoc }
      DefaultFilter.exclude).2.2.1,
   (C10_helpers_frame
      { onlyDeleted := false, withDeleted := true, filter := emptyDoc }
      DefaultFilter.exclude).2.2.2.2.2.2 rfl rfl⟩

/-- Claim C1 is refuted by the code (evaluation at the failing input):
`'updateMany'` is itself in the plugin's hooked `methods` list and the bulk
statics pass no per-call options, so under the hardcoded `'exclude'` mode
the pre-hook injects `notDeleted()` into the bulk target selection.  On a
collection holding one soft-deleted record (`deletedAt = 1700000000`, which
matches the supplied filter `\x7b\x7d`), the bulk `restore(\x7b\x7d)` leaves the
marker at `1700000000` instead of setting it to null, and the bulk
`softDelete(\x7b\x7d)` at time `200` leaves it at `1700000000` instead of
stamping `200`. -/
theorem C1_bulk_statics_eval :
    docMatch emptyDoc [("deletedAt", BVal.vnum 1700000000)] = true ∧
    restoreStatic [[("deletedAt", BVal.vnum 1700000000)]] =
      [[("deletedAt", BVal.vnum 1700000000)]] ∧
    restoreStatic [[("deletedAt", BVal.vnum 1700000000)]] ≠
      [[("deletedAt", BVal.vnull)]] ∧
    softDeleteStatic 200 [[("deletedAt", BVal.vnum 1700000000)]] =
      [[("deletedAt", BVal.vnum 1700000000)]] ∧
    softDeleteStatic 200 [[("deletedAt", BVal.vnum 1700000000)]] ≠
      [[("deletedAt", BVal.vnum 200)]] := by
  refine ⟨?_, ?_, ?_, ?_, ?_⟩ <;> decide

/-- Claim C2 is refuted by the code (evaluation at the failing input): on a
collection holding one live record, calling the bulk `softDelete(\x7b\x7d)` at
time `100` and then again at time `200` leaves the record's marker at `100`,
the time of the *first* call — the second call matches nothing because the
injected `notDeleted()` pre-hook filter excludes the freshly stamped record
from the bulk target selection. -/
theorem C2_bulk_double_softDelete_eval :
    softDeleteStatic 100 [([] : Record)] = [[("deletedAt", BVal.vnum 100)]] ∧
    softDeleteStatic 200 (softDeleteStatic 100 [([] : Record)]) =
      [[("deletedAt", BVal.vnum 100)]] ∧
    softDeleteStatic 200 (softDeleteStatic 100 [([] : Record)]) ≠
      [[("deletedAt", BVal.vnum 200)]] := by
  refine ⟨?_, ?_, ?_⟩ <;> decide

end MongoPlugins
